import Mathlib

/-!
Verification development for the batch image upload script
`src/image_resize.py` of the cloudinary-image-processing-resizing
repository.

The Python source is shallowly embedded: every definition below is
translated from the source, function by function.  Python dictionaries
become association lists with distinct keys, Python values that occur
as request parameters become the `PyVal` sum type, the fallible network
upload becomes an `Option`-returning oracle, and SHA-1 is implemented
executably over byte lists (`Nat` values below 256).

Scope notes recorded where relevant:
- `to_public_id` is embedded for ASCII input, on which the
  `unicodedata.normalize("NFKD", s)` step of line 32 is the identity and
  Python's Unicode-aware `\w` class coincides with `[A-Za-z0-9_]`.
- `time.sleep` is modelled as a boolean "slept" flag per row; the
  numeric duration (a float constant) is not modelled.
-/

/-- A Python value as it can appear in the parameter dictionary passed to
`cld_signature`.  `float n` models a float of integral value `n` (the only
floats relevant to the claims; Python renders such a float as `n.0`). -/
inductive PyVal where
  | none : PyVal
  | str : String → PyVal
  | bool : Bool → PyVal
  | int : Int → PyVal
  | float : Int → PyVal
deriving DecidableEq

/-- Python `str()` applied to a `PyVal`, as in the f-string interpolation of
`f"{k}={params[k]}"` (src/image_resize.py line 41). -/
def pyStr : PyVal → String
  | PyVal.none => "None"
  | PyVal.str s => s
  | PyVal.bool b => if b then "True" else "False"
  | PyVal.int n => toString n
  | PyVal.float n => toString n ++ ".0"

/-- Python membership test `v in (None, "", False)` from line 43 of the
source.  Python `in` uses `==`; numeric zero compares equal to `False`,
so `0` and `0.0` are members as well. -/
def droppedVal : PyVal → Bool
  | PyVal.none => true
  | PyVal.str s => s == ""
  | PyVal.bool b => !b
  | PyVal.int n => n == 0
  | PyVal.float n => n == 0

/-- Lexicographic code-point comparison of character lists, matching how
Python compares strings (and hence how `sorted(params)` orders keys). -/
def lexLe : List Char → List Char → Bool
  | [], _ => true
  | _ :: _, [] => false
  | a :: as, b :: bs =>
    if a.toNat < b.toNat then true
    else if b.toNat < a.toNat then false
    else lexLe as bs

/-- The string order used by Python's `sorted` on dict keys. -/
def keyLe (a b : String) : Prop := lexLe a.data b.data = true

instance : DecidableRel keyLe := fun a b => instDecidableEqBool (lexLe a.data b.data) true

/-- `sorted(params)` from line 42 of the source: the parameter names in
ascending string order. -/
def sortedKeys (l : List String) : List String := List.insertionSort keyLe l

/-- Dictionary lookup `params[k]`.  The `PyVal.none` default is never
reached when `k` is a key of `params`. -/
def lookupP (params : List (String × PyVal)) (k : String) : PyVal :=
  match params.find? (fun p => p.1 == k) with
  | Option.some p => p.2
  | Option.none => PyVal.none

/-- The parameter names that survive the `if params[k] not in (None, "", False)`
filter inside the generator expression of lines 40-43, in sorted order. -/
def keptKeys (params : List (String × PyVal)) : List String :=
  (sortedKeys (params.map (fun p => p.1))).filter (fun k => !droppedVal (lookupP params k))

/-- The string that gets hashed: `"&".join(f"{k}={params[k]}" for k in
sorted(params) if params[k] not in (None, "", False)) + api_secret`
(lines 40-44 of the source). -/
def to_sign (params : List (String × PyVal)) (api_secret : String) : String :=
  String.intercalate "&"
    ((keptKeys params).map (fun k => k ++ "=" ++ pyStr (lookupP params k))) ++ api_secret

/-- UTF-8 encoding of one character (standard RFC 3629 byte layout),
matching Python's `str.encode("utf-8")`. -/
def utf8Char (c : Char) : List Nat :=
  let n := c.toNat
  if n < 128 then [n]
  else if n < 2048 then [192 ||| (n >>> 6), 128 ||| (n &&& 63)]
  else if n < 65536 then
    [224 ||| (n >>> 12), 128 ||| ((n >>> 6) &&& 63), 128 ||| (n &&& 63)]
  else
    [240 ||| (n >>> 18), 128 ||| ((n >>> 12) &&& 63),
     128 ||| ((n >>> 6) &&& 63), 128 ||| (n &&& 63)]

/-- UTF-8 encoding of a string as a list of byte values. -/
def utf8Encode (s : String) : List Nat := s.data.flatMap utf8Char

/-- Left rotation of a 32-bit word represented as a `Nat` below `2 ^ 32`. -/
def rotl32 (x n : Nat) : Nat := ((x <<< n) ||| (x >>> (32 - n))) % 4294967296

/-- SHA-1 message padding: append `0x80`, zero bytes up to 56 mod 64, then
the 8-byte big-endian bit length. -/
def sha1Pad (msg : List Nat) : List Nat :=
  msg ++ 0x80 :: List.replicate ((119 - msg.length % 64) % 64) 0 ++
    (List.range 8).map (fun i => ((msg.length * 8) >>> ((7 - i) * 8)) % 256)

/-- Split a byte list into 64-byte chunks (fuel-based structural recursion;
the fuel `l.length` always suffices because each step consumes at least one
byte). -/
def chunks64Go : Nat → List Nat → List (List Nat)
  | _, [] => []
  | 0, l => [l]
  | fuel + 1, l => l.take 64 :: chunks64Go fuel (l.drop 64)

/-- Split a byte list into 64-byte chunks. -/
def chunks64 (l : List Nat) : List (List Nat) := chunks64Go l.length l

/-- The sixteen 32-bit big-endian words of one 64-byte chunk. -/
def wordsOfChunk (c : List Nat) : List Nat :=
  (List.range 16).map (fun i =>
    c.getD (4 * i) 0 * 16777216 + c.getD (4 * i + 1) 0 * 65536 +
    c.getD (4 * i + 2) 0 * 256 + c.getD (4 * i + 3) 0)

/-- The 80-word SHA-1 message schedule. -/
def sha1Schedule (w16 : List Nat) : List Nat :=
  (List.range 80).foldl
    (fun ws t =>
      if t < 16 then ws ++ [w16.getD t 0]
      else ws ++ [rotl32 ((ws.getD (t - 3) 0) ^^^ (ws.getD (t - 8) 0) ^^^
        (ws.getD (t - 14) 0) ^^^ (ws.getD (t - 16) 0)) 1])
    []

/-- The SHA-1 round function `f` for round `t`. -/
def sha1F (t b c d : Nat) : Nat :=
  if t < 20 then (b &&& c) ||| ((b ^^^ 4294967295) &&& d)
  else if t < 40 then b ^^^ c ^^^ d
  else if t < 60 then (b &&& c) ||| (b &&& d) ||| (c &&& d)
  else b ^^^ c ^^^ d

/-- The SHA-1 round constant for round `t`. -/
def sha1K (t : Nat) : Nat :=
  if t < 20 then 0x5A827999
  else if t < 40 then 0x6ED9EBA1
  else if t < 60 then 0x8F1BBCDC
  else 0xCA62C1D6

/-- One SHA-1 round on the five-word state. -/
def sha1Round (ws : List Nat) (st : Nat × Nat × Nat × Nat × Nat) (t : Nat) :
    Nat × Nat × Nat × Nat × Nat :=
  let a := st.1
  let b := st.2.1
  let c := st.2.2.1
  let d := st.2.2.2.1
  let e := st.2.2.2.2
  ((rotl32 a 5 + sha1F t b c d + e + sha1K t + ws.getD t 0) % 4294967296,
   a, rotl32 b 30, c, d)

/-- Process one 64-byte chunk. -/
def sha1Chunk (h : Nat × Nat × Nat × Nat × Nat) (chunk : List Nat) :
    Nat × Nat × Nat × Nat × Nat :=
  let ws := sha1Schedule (wordsOfChunk chunk)
  let f := (List.range 80).foldl (sha1Round ws) h
  ((h.1 + f.1) % 4294967296, (h.2.1 + f.2.1) % 4294967296,
   (h.2.2.1 + f.2.2.1) % 4294967296, (h.2.2.2.1 + f.2.2.2.1) % 4294967296,
   (h.2.2.2.2 + f.2.2.2.2) % 4294967296)

/-- The five final SHA-1 state words for a byte-list message. -/
def sha1Words (msg : List Nat) : Nat × Nat × Nat × Nat × Nat :=
  (chunks64 (sha1Pad msg)).foldl sha1Chunk
    (0x67452301, 0xEFCDAB89, 0x98BADCFE, 0x10325476, 0xC3D2E1F0)

/-- Lowercase hexadecimal digit. -/
def hexDigit (n : Nat) : Char :=
  if n < 10 then Char.ofNat (48 + n) else Char.ofNat (87 + n)

/-- Eight lowercase hex digits of a 32-bit word, most significant first. -/
def hex8 (w : Nat) : List Char :=
  (List.range 8).map (fun i => hexDigit ((w >>> ((7 - i) * 4)) % 16))

/-- `hashlib.sha1(bytes).hexdigest()`: the lowercase SHA-1 hex digest of a
byte list. -/
def sha1Hex (msg : List Nat) : String :=
  let h := sha1Words msg
  String.mk (hex8 h.1 ++ hex8 h.2.1 ++ hex8 h.2.2.1 ++ hex8 h.2.2.2.1 ++ hex8 h.2.2.2.2)

/-- `cld_signature` from lines 38-45 of the source: SHA-1 hex digest of the
UTF-8 bytes of the canonical string `to_sign`. -/
def cld_signature (params : List (String × PyVal)) (api_secret : String) : String :=
  sha1Hex (utf8Encode (to_sign params api_secret))

/-- The drop test exactly as the specification words it: a parameter is
dropped when its value is "empty, null, or boolean false".  Unlike the
source's `in (None, "", False)` test, numeric zero is not in this set. -/
def specDropped : PyVal → Bool
  | PyVal.none => true
  | PyVal.str s => s == ""
  | PyVal.bool b => !b
  | _ => false

/-- The signature algorithm following the specification's words, with the
drop test `dropped` left as a parameter: drop parameters by value, sort the
remaining parameter names, join them as key=value pairs with ampersands,
append the raw secret, and take the SHA-1 hex digest of the UTF-8 bytes. -/
def spec_signature_with (dropped : PyVal → Bool) (params : List (String × PyVal))
    (api_secret : String) : String :=
  sha1Hex (utf8Encode (String.intercalate "&"
    ((sortedKeys ((params.filter (fun p => !dropped p.2)).map (fun p => p.1))).map
      (fun k => k ++ "=" ++ pyStr (lookupP (params.filter (fun p => !dropped p.2)) k)))
    ++ api_secret))

/-- The signature exactly as claimed: only empty, null and boolean-false
values are dropped. -/
def spec_signature (params : List (String × PyVal)) (api_secret : String) : String :=
  spec_signature_with specDropped params api_secret

/-- The signature as amended: values that are empty, null, boolean false,
or numeric zero (which Python compares equal to `False`) are dropped. -/
def spec_signature_amended (params : List (String × PyVal)) (api_secret : String) : String :=
  spec_signature_with droppedVal params api_secret

/-- The signed parameter dictionary built by `upload_to_cloudinary`
(lines 71-78 of the source): folder, overwrite, unique_filename, timestamp,
and `public_id` only when the identifier is non-empty (Python truthiness of
a string). -/
def sign_params_of (folder ts public_id : String) : List (String × PyVal) :=
  [("folder", PyVal.str folder), ("overwrite", PyVal.str "true"),
   ("unique_filename", PyVal.str "false"), ("timestamp", PyVal.str ts)] ++
  (if public_id == "" then [] else [("public_id", PyVal.str public_id)])

/-- ASCII word characters: what Python's regex class matches inside the
ASCII range (the embedding of `to_public_id` is restricted to ASCII input,
where the Unicode-aware class coincides with this set). -/
def wordChar (c : Char) : Bool :=
  (65 ≤ c.toNat && c.toNat ≤ 90) || (97 ≤ c.toNat && c.toNat ≤ 122) ||
  (48 ≤ c.toNat && c.toNat ≤ 57) || c == '_'

/-- The characters the sanitizer keeps: word characters and the hyphen. -/
def keepChar (c : Char) : Bool := wordChar c || c == '-'

/-- Combining diacritical marks U+0300 to U+036F, as removed by
`re.sub(r"[̀-ͯ]", "", s)` on line 33 of the source. -/
def combiningMark (c : Char) : Bool := 768 ≤ c.toNat && c.toNat ≤ 879

/-- `re.sub(bad+, "_", s)` on character lists: every maximal run of
characters satisfying `bad` is replaced by a single underscore.  The
`inRun` flag records whether the previous character was part of a run, so
the recursion stays structural. -/
def replaceRunsGo (bad : Char → Bool) (inRun : Bool) : List Char → List Char
  | [] => []
  | c :: cs =>
    if bad c then
      if inRun then replaceRunsGo bad true cs
      else '_' :: replaceRunsGo bad true cs
    else c :: replaceRunsGo bad false cs

/-- Replace every maximal run of `bad` characters by one underscore. -/
def replaceRuns (bad : Char → Bool) (l : List Char) : List Char :=
  replaceRunsGo bad false l

/-- Python `str.strip("_")`: remove leading and trailing underscores. -/
def stripUnd (l : List Char) : List Char :=
  ((l.dropWhile (fun c => c == '_')).reverse.dropWhile (fun c => c == '_')).reverse

/-- `to_public_id` from lines 30-36 of the source, embedded for ASCII
input strings: on those, `str(s or "")` and the NFKD normalization of
line 32 are the identity, and the `[^\w\-]+` class is the complement of
`keepChar`.  The combining-mark removal of line 33 is kept (it is also the
identity on ASCII), then non-kept runs become underscores, underscore runs
are collapsed, and leading and trailing underscores are stripped. -/
def to_public_id (s : String) : String :=
  String.mk (stripUnd (replaceRuns (fun c => c == '_')
    (replaceRuns (fun c => !keepChar c)
      (s.data.filter (fun c => !combiningMark c)))))

/-- The sanitizer output as claimed: the input with every maximal run of
characters outside `[A-Za-z0-9_-]` replaced by a single underscore, and
nothing else changed. -/
def spec_sanitize (s : String) : String :=
  String.mk (replaceRuns (fun c => !keepChar c) s.data)

/-- Python `str.replace(pat, repl)` on character lists: replace every
non-overlapping occurrence of `pat`, scanning left to right; the
replacement text is never rescanned.  Fuel-based structural recursion; the
fuel `l.length` suffices because every step consumes at least one character
(the embedding is only used with non-empty `pat`, mirroring the fixed
`"/upload/"` marker of the source). -/
def pyReplaceGo (pat repl : List Char) : Nat → List Char → List Char
  | _, [] => []
  | 0, l => l
  | fuel + 1, c :: cs =>
    if pat.isPrefixOf (c :: cs) && !pat.isEmpty then
      repl ++ pyReplaceGo pat repl fuel ((c :: cs).drop pat.length)
    else c :: pyReplaceGo pat repl fuel cs

/-- Python `str.replace(pat, repl)` on character lists. -/
def pyReplace (pat repl l : List Char) : List Char := pyReplaceGo pat repl l.length l

/-- `cld_transform_url` from lines 47-49 of the source:
`str(secure_url).replace("/upload/", f"/upload/{transform}/")`. -/
def cld_transform_url (secure_url transform : String) : String :=
  String.mk (pyReplace "/upload/".data ("/upload/".data ++ transform.data ++ ['/'])
    secure_url.data)

/-- Does `pat` occur as a contiguous segment of `l`?  Used to state when
`str.replace` finds no match. -/
def hasOccur (pat : List Char) : List Char → Bool
  | [] => pat.isEmpty
  | c :: cs => pat.isPrefixOf (c :: cs) || hasOccur pat cs

/-- A spreadsheet cell: either the pandas not-a-value marker or a textual
value.  (Numeric cells are out of scope; every claim is about textual
cells.) -/
inductive Cell where
  | na : Cell
  | val : String → Cell
deriving DecidableEq

/-- A spreadsheet row: named cells in column order. -/
abbrev Row := List (String × Cell)

/-- `row.get(col)`: the cell under a column name, NaN when absent. -/
def rowGet (r : Row) (c : String) : Cell :=
  match r.find? (fun p => p.1 == c) with
  | Option.some p => p.2
  | Option.none => Cell.na

/-- The ASCII whitespace characters removed by Python's `str.strip()`
(space, tab, newline, carriage return, vertical tab, form feed; the cell
values in scope are ASCII). -/
def pySpace (c : Char) : Bool :=
  c == ' ' || c == '\t' || c == '\n' || c == '\r' || c.toNat == 11 || c.toNat == 12

/-- Python `str.strip()`: remove leading and trailing whitespace. -/
def pyStrip (s : String) : String :=
  String.mk (((s.data.dropWhile pySpace).reverse.dropWhile pySpace).reverse)

/-- `cell_str` from lines 96-100 of the source: NaN becomes the empty
string, any other value is rendered and stripped of surrounding
whitespace. -/
def cell_str : Cell → String
  | Cell.na => ""
  | Cell.val s => pyStrip s

/-- The in-process configuration constants of the SETTINGS block
(lines 15-18 of the source) that the row pipeline reads. -/
structure Settings where
  folder : String
  useAltText : Bool
  transform : String
deriving DecidableEq

/-- The constants as written in the source. -/
def defaultSettings : Settings :=
  Settings.mk "husq_parts" true "c_pad,w_800,h_800,b_white,f_auto,q_auto,dpr_auto"

/-- `cell_str(row.get(c)) if c in df.columns else ""` (lines 138-140). -/
def colVal (cols : List String) (r : Row) (c : String) : String :=
  if c ∈ cols then cell_str (rowGet r c) else ""

/-- The identifier selection of lines 142-144:
`alt_id if (USE_IMAGE_ALT_TEXT_AS_PUBLIC_ID and alt_id) else (name_id or sku)`. -/
def publicIdFor (cfg : Settings) (cols : List String) (r : Row) : String :=
  let alt_id := to_public_id (colVal cols r "Image Alt Text")
  let name_id := to_public_id (colVal cols r "Product Name")
  if cfg.useAltText && !(alt_id == "") then alt_id
  else if !(name_id == "") then name_id
  else cell_str (rowGet r "SKU")

/-- The outcome of one loop iteration of `main` (lines 126-164).  The
`failed` and `succeeded` outcomes record the SKU and the identifier that
was passed to the uploader; `succeeded` also records the transformed URL
and the produced output row. -/
inductive RowResult where
  | skippedSku : RowResult
  | skippedImage : String → RowResult
  | failed : String → String → RowResult
  | succeeded : String → String → String → List (String × String) → RowResult
deriving DecidableEq

/-- The identifier handed to the uploader, when the row reached that step. -/
def resultPublicId : RowResult → Option String
  | RowResult.failed _ pid => Option.some pid
  | RowResult.succeeded _ pid _ _ => Option.some pid
  | _ => Option.none

/-- Python dict assignment `d[k] = v`: overwrite in place when the key is
present, append otherwise. -/
def dictSet (d : List (String × String)) (k v : String) : List (String × String) :=
  if d.any (fun p => p.1 == k) then
    d.map (fun p => if p.1 == k then (k, v) else p)
  else d ++ [(k, v)]

/-- One loop iteration of `main` (lines 126-164).  The network effects of
`upload_to_cloudinary` are abstracted as the oracle
`upload img_url public_id referer`, which returns the secure URL or `none`
when the call raises (fetch or upload failure). -/
def processRow (cfg : Settings) (upload : String → String → String → Option String)
    (cols : List String) (r : Row) : RowResult :=
  if cell_str (rowGet r "SKU") == "" then RowResult.skippedSku
  else if cell_str (rowGet r "Image") == "" then
    RowResult.skippedImage (cell_str (rowGet r "SKU"))
  else
    match upload (cell_str (rowGet r "Image")) (publicIdFor cfg cols r)
        (colVal cols r "Starting Url") with
    | Option.none => RowResult.failed (cell_str (rowGet r "SKU")) (publicIdFor cfg cols r)
    | Option.some base_url =>
      RowResult.succeeded (cell_str (rowGet r "SKU")) (publicIdFor cfg cols r)
        (cld_transform_url base_url cfg.transform)
        (dictSet (dictSet (cols.map (fun c => (c, cell_str (rowGet r c))))
          "Variant SKU" (cell_str (rowGet r "SKU")))
          "Image Src" (cld_transform_url base_url cfg.transform))

/-- The mutable loop state of `main`: the `attempted` and `processed`
counters and the accumulated `out_rows` list (lines 123-124). -/
structure LoopState where
  attempted : Nat
  processed : Nat
  out_rows : List (List (String × String))
deriving DecidableEq

/-- One iteration of the row loop, returning the updated state and whether
the iteration slept.  Validation skips `continue` before the `try` block,
so they bypass the `finally: time.sleep(THROTTLE_SEC)`; attempted rows
(failed or succeeded) always reach it. -/
def stepRow (cfg : Settings) (upload : String → String → String → Option String)
    (cols : List String) (st : LoopState) (r : Row) : LoopState × Bool :=
  match processRow cfg upload cols r with
  | RowResult.skippedSku => (st, false)
  | RowResult.skippedImage _ => (st, false)
  | RowResult.failed _ _ =>
    (LoopState.mk (st.attempted + 1) st.processed st.out_rows, true)
  | RowResult.succeeded _ _ _ out =>
    (LoopState.mk (st.attempted + 1) (st.processed + 1) (st.out_rows ++ [out]), true)

/-- The whole row loop of `main` over a list of rows. -/
def runRows (cfg : Settings) (upload : String → String → String → Option String)
    (cols : List String) (rows : List Row) (st : LoopState) : LoopState :=
  rows.foldl (fun s r => (stepRow cfg upload cols s r).1) st

/-- The output column list of lines 169-173: a copy of the source columns,
then each of `Variant SKU` and `Image Src` appended when not already
present. -/
def outputColumns (source_cols : List String) : List String :=
  ["Variant SKU", "Image Src"].foldl
    (fun acc col => if col ∈ acc then acc else acc ++ [col]) source_cols

/-- The write step of lines 166-178: when at least one output row exists,
a file with the reordered columns and the collected rows is written;
otherwise nothing is written. -/
def finalWrite (cols : List String) (st : LoopState) :
    Option (List String × List (List (String × String))) :=
  if st.out_rows.isEmpty then Option.none
  else Option.some (outputColumns cols, st.out_rows)

/-- The final console line of lines 179-182: the Done line with the two
counters when a file was written, the fixed no-rows line otherwise. -/
def summaryMessage (st : LoopState) : String :=
  if st.out_rows.isEmpty then "No rows processed; nothing to write."
  else "Done. Attempted: " ++ toString st.attempted ++ ", Processed: " ++ toString st.processed

/-- The identifier selection as the claim words it: the sanitized alt text
when the policy flag is on and that value is non-empty, otherwise the
sanitized product name when non-empty, otherwise the raw SKU. -/
def specChosenId (useAlt : Bool) (alt pname sku : String) : String :=
  if useAlt = true ∧ to_public_id alt ≠ "" then to_public_id alt
  else if to_public_id pname ≠ "" then to_public_id pname
  else sku

/-- The invariant of the loop counters: the processed count is the length
of the accumulated output and never exceeds the attempted count. -/
def countersOk (st : LoopState) : Prop :=
  st.processed = st.out_rows.length ∧ st.processed ≤ st.attempted

/-! ## Order lemmas for the key comparison -/

theorem lexLe_cons (a b : Char) (as bs : List Char) :
    lexLe (a :: as) (b :: bs) =
      if a.toNat < b.toNat then true
      else if b.toNat < a.toNat then false
      else lexLe as bs := rfl

theorem lexLe_cons_of_lt {a b : Char} (as bs : List Char) (h : a.toNat < b.toNat) :
    lexLe (a :: as) (b :: bs) = true := by
  rw [lexLe_cons, if_pos h]

theorem lexLe_cons_of_eq {a b : Char} {as bs : List Char} (h : a.toNat = b.toNat)
    (h2 : lexLe as bs = true) : lexLe (a :: as) (b :: bs) = true := by
  rw [lexLe_cons, if_neg (by omega), if_neg (by omega)]
  exact h2

theorem lexLe_cons_elim {a b : Char} {as bs : List Char}
    (h : lexLe (a :: as) (b :: bs) = true) :
    a.toNat < b.toNat ∨ (a.toNat = b.toNat ∧ lexLe as bs = true) := by
  rw [lexLe_cons] at h
  by_cases h1 : a.toNat < b.toNat
  · exact Or.inl h1
  · rw [if_neg h1] at h
    by_cases h2 : b.toNat < a.toNat
    · rw [if_pos h2] at h
      exact absurd h (by simp)
    · rw [if_neg h2] at h
      exact Or.inr ⟨by omega, h⟩

theorem lexLe_total : ∀ a b : List Char, lexLe a b = true ∨ lexLe b a = true
  | [], _ => Or.inl rfl
  | _ :: _, [] => Or.inr rfl
  | a :: as, b :: bs => by
    rcases Nat.lt_trichotomy a.toNat b.toNat with h | h | h
    · exact Or.inl (lexLe_cons_of_lt as bs h)
    · rcases lexLe_total as bs with ih | ih
      · exact Or.inl (lexLe_cons_of_eq h ih)
      · exact Or.inr (lexLe_cons_of_eq h.symm ih)
    · exact Or.inr (lexLe_cons_of_lt bs as h)

theorem lexLe_trans : ∀ a b c : List Char,
    lexLe a b = true → lexLe b c = true → lexLe a c = true
  | [], _, _, _, _ => rfl
  | _ :: _, [], _, h1, _ => by simp [lexLe] at h1
  | _ :: _, _ :: _, [], _, h2 => by simp [lexLe] at h2
  | a :: as, b :: bs, c :: cs, h1, h2 => by
    rcases lexLe_cons_elim h1 with hab | ⟨hab, h1'⟩ <;>
      rcases lexLe_cons_elim h2 with hbc | ⟨hbc, h2'⟩
    · exact lexLe_cons_of_lt as cs (hab.trans hbc)
    · exact lexLe_cons_of_lt as cs (by omega)
    · exact lexLe_cons_of_lt as cs (by omega)
    · exact lexLe_cons_of_eq (by omega) (lexLe_trans as bs cs h1' h2')

theorem lexLe_antisymm : ∀ a b : List Char,
    lexLe a b = true → lexLe b a = true → a = b
  | [], [], _, _ => rfl
  | [], _ :: _, _, h2 => by simp [lexLe] at h2
  | _ :: _, [], h1, _ => by simp [lexLe] at h1
  | a :: as, b :: bs, h1, h2 => by
    rcases lexLe_cons_elim h1 with hab | ⟨hab, h1'⟩ <;>
      rcases lexLe_cons_elim h2 with hba | ⟨hba, h2'⟩
    · omega
    · omega
    · omega
    · have hc : a = b := by
        apply Char.ext
        exact UInt32.toNat.inj hab
      rw [hc, lexLe_antisymm as bs h1' h2']

instance : IsTotal String keyLe := ⟨fun a b => lexLe_total a.data b.data⟩

instance : IsTrans String keyLe := ⟨fun a b c => lexLe_trans a.data b.data c.data⟩

instance : IsAntisymm String keyLe :=
  ⟨fun a b h1 h2 => by
    cases a with | mk da =>
    cases b with | mk db =>
    rw [lexLe_antisymm da db h1 h2]⟩

/-! ## Lemmas about sorted key lists and dictionary lookup -/

theorem mem_sortedKeys (k : String) (l : List String) :
    k ∈ sortedKeys l ↔ k ∈ l :=
  (List.perm_insertionSort keyLe l).mem_iff

theorem sortedKeys_filter (l : List String) (p : String → Bool) :
    (sortedKeys l).filter p = sortedKeys (l.filter p) :=
  List.eq_of_perm_of_sorted
    (((List.perm_insertionSort keyLe l).filter p).trans
      (List.perm_insertionSort keyLe (l.filter p)).symm)
    ((List.sorted_insertionSort keyLe l).filter p)
    (List.sorted_insertionSort keyLe (l.filter p))

theorem lookupP_cons_self (k : String) (v : PyVal) (ps : List (String × PyVal)) :
    lookupP ((k, v) :: ps) k = v := by
  simp [lookupP, List.find?]

theorem lookupP_cons_ne (x k : String) (v : PyVal) (ps : List (String × PyVal))
    (h : (x == k) = false) : lookupP ((x, v) :: ps) k = lookupP ps k := by
  simp [lookupP, List.find?, h]

theorem lookupP_append_left (ps qs : List (String × PyVal)) (k : String)
    (h : k ∈ ps.map (fun p => p.1)) : lookupP (ps ++ qs) k = lookupP ps k := by
  induction ps with
  | nil => simp at h
  | cons p ps ih =>
    obtain ⟨x, v⟩ := p
    by_cases hk : x = k
    · subst hk
      rw [List.cons_append, lookupP_cons_self, lookupP_cons_self]
    · have hb : (x == k) = false := beq_eq_false_iff_ne.mpr hk
      rw [List.cons_append, lookupP_cons_ne _ _ _ _ hb, lookupP_cons_ne _ _ _ _ hb]
      apply ih
      rcases List.mem_cons.mp h with hh | hh
      · exact absurd hh.symm hk
      · exact hh

theorem lookupP_append_fresh (ps : List (String × PyVal)) (k : String) (v : PyVal)
    (h : k ∉ ps.map (fun p => p.1)) : lookupP (ps ++ [(k, v)]) k = v := by
  induction ps with
  | nil => exact lookupP_cons_self k v []
  | cons p ps ih =>
    obtain ⟨x, w⟩ := p
    have hx : x ≠ k := fun hh => h (by simp [hh])
    rw [List.cons_append, lookupP_cons_ne _ _ _ _ (beq_eq_false_iff_ne.mpr hx)]
    exact ih (fun hh => h (List.mem_cons_of_mem _ hh))

theorem filter_map_keys (d : PyVal → Bool) :
    ∀ ps : List (String × PyVal), (ps.map (fun p => p.1)).Nodup →
      (ps.filter (fun p => !d p.2)).map (fun p => p.1) =
        (ps.map (fun p => p.1)).filter (fun k => !d (lookupP ps k))
  | [], _ => rfl
  | (x, v) :: ps, h => by
    have hx : x ∉ ps.map (fun p => p.1) := (List.nodup_cons.mp h).1
    have hps := (List.nodup_cons.mp h).2
    have hcong : (ps.map (fun p => p.1)).filter (fun k => !d (lookupP ((x, v) :: ps) k)) =
        (ps.map (fun p => p.1)).filter (fun k => !d (lookupP ps k)) := by
      apply List.filter_congr
      intro k hk
      have hb : (x == k) = false := beq_eq_false_iff_ne.mpr (fun hh => hx (hh ▸ hk))
      rw [lookupP_cons_ne _ _ _ _ hb]
    have hmap : ((x, v) :: ps).map (fun p => p.1) = x :: ps.map (fun p => p.1) := rfl
    rw [hmap]
    by_cases hv : d v = true
    · have e1 : ((x, v) :: ps).filter (fun p => !d p.2) = ps.filter (fun p => !d p.2) :=
        List.filter_cons_of_neg (by simp [hv])
      have e2 : (x :: ps.map (fun p => p.1)).filter
            (fun k => !d (lookupP ((x, v) :: ps) k)) =
          (ps.map (fun p => p.1)).filter (fun k => !d (lookupP ((x, v) :: ps) k)) :=
        List.filter_cons_of_neg (by rw [lookupP_cons_self]; simp [hv])
      rw [e1, e2, hcong, filter_map_keys d ps hps]
    · have hv' : d v = false := by simpa using hv
      have e1 : ((x, v) :: ps).filter (fun p => !d p.2) =
          (x, v) :: ps.filter (fun p => !d p.2) :=
        List.filter_cons_of_pos (by simp [hv'])
      have e2 : (x :: ps.map (fun p => p.1)).filter
            (fun k => !d (lookupP ((x, v) :: ps) k)) =
          x :: (ps.map (fun p => p.1)).filter (fun k => !d (lookupP ((x, v) :: ps) k)) :=
        List.filter_cons_of_pos (by rw [lookupP_cons_self]; simp [hv'])
      rw [e1, e2, hcong, List.map_cons, filter_map_keys d ps hps]

theorem lookupP_filter (q : String × PyVal → Bool) :
    ∀ ps : List (String × PyVal), (ps.map (fun p => p.1)).Nodup →
      ∀ k, k ∈ (ps.filter q).map (fun p => p.1) →
        lookupP (ps.filter q) k = lookupP ps k
  | [], _, _, hk => by simp at hk
  | (x, v) :: ps, h, k, hk => by
    have hx : x ∉ ps.map (fun p => p.1) := (List.nodup_cons.mp h).1
    have hps := (List.nodup_cons.mp h).2
    by_cases hq : q (x, v) = true
    · rw [List.filter_cons_of_pos hq] at hk ⊢
      by_cases hxk : x = k
      · subst hxk
        rw [lookupP_cons_self, lookupP_cons_self]
      · have hb : (x == k) = false := beq_eq_false_iff_ne.mpr hxk
        rw [lookupP_cons_ne _ _ _ _ hb, lookupP_cons_ne _ _ _ _ hb]
        apply lookupP_filter q ps hps
        rcases List.mem_cons.mp hk with hh | hh
        · exact absurd hh.symm hxk
        · exact hh
    · have hq' : q (x, v) = false := by simpa using hq
      rw [List.filter_cons_of_neg (by rw [hq']; simp)] at hk ⊢
      have hxk : x ≠ k := by
        intro hh
        subst hh
        rcases List.mem_map.mp hk with ⟨pr, hpr, hpx⟩
        exact hx (List.mem_map.mpr ⟨pr, List.mem_of_mem_filter hpr, hpx⟩)
      rw [lookupP_cons_ne _ _ _ _ (beq_eq_false_iff_ne.mpr hxk)]
      exact lookupP_filter q ps hps k hk

/-! ## The signature builder against its specification -/

theorem to_sign_filter_sort (ps : List (String × PyVal)) (secret : String)
    (h : (ps.map (fun p => p.1)).Nodup) :
    to_sign ps secret = String.intercalate "&"
      ((sortedKeys ((ps.filter (fun p => !droppedVal p.2)).map (fun p => p.1))).map
        (fun k => k ++ "=" ++ pyStr (lookupP (ps.filter (fun p => !droppedVal p.2)) k)))
      ++ secret := by
  have hkeys := filter_map_keys droppedVal ps h
  have hlist : sortedKeys ((ps.filter (fun p => !droppedVal p.2)).map (fun p => p.1)) =
      keptKeys ps := by
    rw [hkeys, ← sortedKeys_filter]
    rfl
  unfold to_sign
  rw [← hlist]
  have hmap : (sortedKeys ((ps.filter (fun p => !droppedVal p.2)).map (fun p => p.1))).map
        (fun k => k ++ "=" ++ pyStr (lookupP ps k)) =
      (sortedKeys ((ps.filter (fun p => !droppedVal p.2)).map (fun p => p.1))).map
        (fun k => k ++ "=" ++ pyStr (lookupP (ps.filter (fun p => !droppedVal p.2)) k)) := by
    apply List.map_congr_left
    intro k hk
    rw [lookupP_filter _ ps h k ((mem_sortedKeys k _).mp hk)]
  rw [hmap]

theorem to_sign_append_dropped (ps : List (String × PyVal)) (k secret : String) (v : PyVal)
    (hv : droppedVal v = true) (h : k ∉ ps.map (fun p => p.1)) :
    to_sign (ps ++ [(k, v)]) secret = to_sign ps secret := by
  unfold to_sign keptKeys
  have hK : (ps ++ [(k, v)]).map (fun p => p.1) = ps.map (fun p => p.1) ++ [k] := by
    simp
  have hfresh : lookupP (ps ++ [(k, v)]) k = v := lookupP_append_fresh ps k v h
  have hsingle : List.filter (fun x => !droppedVal (lookupP (ps ++ [(k, v)]) x)) [k] = [] := by
    simp [List.filter_cons, hfresh, hv]
  have hcong : List.filter (fun x => !droppedVal (lookupP (ps ++ [(k, v)]) x))
        (ps.map (fun p => p.1)) =
      List.filter (fun x => !droppedVal (lookupP ps x)) (ps.map (fun p => p.1)) := by
    apply List.filter_congr
    intro x hx
    rw [lookupP_append_left ps [(k, v)] x hx]
  have hmapf : ∀ x ∈ (sortedKeys (ps.map (fun p => p.1))).filter
        (fun x => !droppedVal (lookupP ps x)),
      x ++ "=" ++ pyStr (lookupP (ps ++ [(k, v)]) x) = x ++ "=" ++ pyStr (lookupP ps x) := by
    intro x hx
    rw [lookupP_append_left ps [(k, v)] x ((mem_sortedKeys x _).mp (List.mem_filter.mp hx).1)]
  rw [hK, sortedKeys_filter, List.filter_append, hsingle, hcong, List.append_nil,
    ← sortedKeys_filter, List.map_congr_left hmapf]

theorem cld_signature_append_dropped (ps : List (String × PyVal)) (k secret : String)
    (v : PyVal) (hv : droppedVal v = true) (h : k ∉ ps.map (fun p => p.1)) :
    cld_signature (ps ++ [(k, v)]) secret = cld_signature ps secret := by
  unfold cld_signature
  rw [to_sign_append_dropped ps k secret v hv h]

/-- C1: for every parameter map with distinct keys and every secret, the
signature builder returns the SHA-1 hex digest of the UTF-8 bytes of the
canonical string — with the amended drop set: parameters whose value is
empty, null, boolean false, or numeric zero (Python compares `0` and `0.0`
equal to `False`) are dropped; the remaining names are sorted, joined as
key=value pairs with ampersands, and the raw secret is appended. -/
theorem cld_signature_canonical (ps : List (String × PyVal)) (secret : String)
    (h : (ps.map (fun p => p.1)).Nodup) :
    cld_signature ps secret = spec_signature_amended ps secret := by
  unfold cld_signature spec_signature_amended spec_signature_with
  rw [to_sign_filter_sort ps secret h]

set_option maxRecDepth 1000000 in
/-- C1 counterexample: on the parameter map with the single entry
`a ↦ 0` the code's signature differs from the digest the claim describes,
because the code also drops the numeric-zero parameter while the claimed
drop set (empty, null, boolean false) keeps it. -/
theorem cld_signature_zero_cex :
    cld_signature [("a", PyVal.int 0)] "s" ≠ spec_signature [("a", PyVal.int 0)] "s" := by
  decide

/-- C1 witness: the amended canonical-signature theorem applied to the
concrete parameter map of an actual upload request. -/
theorem cld_signature_canonical_w :
    (([("folder", PyVal.str "husq_parts"), ("overwrite", PyVal.str "true"),
       ("unique_filename", PyVal.str "false"), ("timestamp", PyVal.str "1700000000"),
       ("public_id", PyVal.str "Red_Widget")].map (fun p => p.1)).Nodup) ∧
    cld_signature [("folder", PyVal.str "husq_parts"), ("overwrite", PyVal.str "true"),
       ("unique_filename", PyVal.str "false"), ("timestamp", PyVal.str "1700000000"),
       ("public_id", PyVal.str "Red_Widget")] "SECRET" =
      spec_signature_amended [("folder", PyVal.str "husq_parts"), ("overwrite", PyVal.str "true"),
       ("unique_filename", PyVal.str "false"), ("timestamp", PyVal.str "1700000000"),
       ("public_id", PyVal.str "Red_Widget")] "SECRET" :=
  ⟨by decide, cld_signature_canonical _ "SECRET" (by decide)⟩

/-- C8: appending a parameter whose value is the integer `0` or the float
`0.0` to a map that does not already bind that key leaves the signature
unchanged — exactly as appending the same parameter with value `False`
does — because the exclusion test compares with `==` and `0 == False` in
Python. -/
theorem zero_param_excluded (ps : List (String × PyVal)) (k secret : String)
    (h : k ∉ ps.map (fun p => p.1)) :
    cld_signature (ps ++ [(k, PyVal.int 0)]) secret = cld_signature ps secret ∧
    cld_signature (ps ++ [(k, PyVal.float 0)]) secret = cld_signature ps secret ∧
    cld_signature (ps ++ [(k, PyVal.bool false)]) secret = cld_signature ps secret :=
  ⟨cld_signature_append_dropped ps k secret (PyVal.int 0) (by decide) h,
   cld_signature_append_dropped ps k secret (PyVal.float 0) (by decide) h,
   cld_signature_append_dropped ps k secret (PyVal.bool false) (by decide) h⟩

/-- C8 witness: the zero-exclusion theorem applied to a concrete
parameter map. -/
theorem zero_param_excluded_w :
    ("count" ∉ [("timestamp", PyVal.str "1700000000"),
       ("folder", PyVal.str "husq_parts")].map (fun p => p.1)) ∧
    (cld_signature [("timestamp", PyVal.str "1700000000"),
        ("folder", PyVal.str "husq_parts"), ("count", PyVal.int 0)] "SECRET" =
      cld_signature [("timestamp", PyVal.str "1700000000"),
        ("folder", PyVal.str "husq_parts")] "SECRET" ∧
     cld_signature [("timestamp", PyVal.str "1700000000"),
        ("folder", PyVal.str "husq_parts"), ("count", PyVal.float 0)] "SECRET" =
      cld_signature [("timestamp", PyVal.str "1700000000"),
        ("folder", PyVal.str "husq_parts")] "SECRET" ∧
     cld_signature [("timestamp", PyVal.str "1700000000"),
        ("folder", PyVal.str "husq_parts"), ("count", PyVal.bool false)] "SECRET" =
      cld_signature [("timestamp", PyVal.str "1700000000"),
        ("folder", PyVal.str "husq_parts")] "SECRET") :=
  ⟨by decide, zero_param_excluded [("timestamp", PyVal.str "1700000000"),
    ("folder", PyVal.str "husq_parts")] "count" "SECRET" (by decide)⟩

/-! ## The sanitizer -/

theorem mem_replaceRunsGo (bad : Char → Bool) :
    ∀ (l : List Char) (inRun : Bool) (c : Char), c ∈ replaceRunsGo bad inRun l →
      c = '_' ∨ (c ∈ l ∧ bad c = false)
  | [], _, _, h => by simp [replaceRunsGo] at h
  | x :: xs, inRun, c, h => by
    simp only [replaceRunsGo] at h
    by_cases hb : bad x = true
    · rw [if_pos hb] at h
      cases inRun with
      | true =>
        rcases mem_replaceRunsGo bad xs true c h with h' | ⟨hm, hbc⟩
        · exact Or.inl h'
        · exact Or.inr ⟨List.mem_cons_of_mem _ hm, hbc⟩
      | false =>
        rcases List.mem_cons.mp h with h' | h'
        · exact Or.inl h'
        · rcases mem_replaceRunsGo bad xs true c h' with h'' | ⟨hm, hbc⟩
          · exact Or.inl h''
          · exact Or.inr ⟨List.mem_cons_of_mem _ hm, hbc⟩
    · have hb' : bad x = false := by simpa using hb
      rw [if_neg (by simp [hb'])] at h
      rcases List.mem_cons.mp h with h' | h'
      · subst h'
        exact Or.inr ⟨List.mem_cons_self _ _, hb'⟩
      · rcases mem_replaceRunsGo bad xs false c h' with h'' | ⟨hm, hbc⟩
        · exact Or.inl h''
        · exact Or.inr ⟨List.mem_cons_of_mem _ hm, hbc⟩

theorem stripUnd_subset (l : List Char) (c : Char) (h : c ∈ stripUnd l) : c ∈ l := by
  unfold stripUnd at h
  have h1 := List.mem_reverse.mp h
  have h2 := (List.dropWhile_sublist _).subset h1
  have h3 := List.mem_reverse.mp h2
  exact (List.dropWhile_sublist _).subset h3

theorem combining_filter_ascii (s : String) (h : ∀ c ∈ s.data, c.toNat < 128) :
    s.data.filter (fun c => !combiningMark c) = s.data := by
  apply List.filter_eq_self.mpr
  intro c hc
  have hcc := h c hc
  unfold combiningMark
  simp only [Bool.not_eq_eq_eq_not, Bool.not_true, Bool.and_eq_false_iff,
    decide_eq_false_iff_not]
  omega

/-- C2 (amended): for ASCII input the sanitizer's output contains only
characters from `[A-Za-z0-9_-]`, and the output is obtained by replacing
every maximal run of characters outside that set with a single underscore,
then collapsing runs of underscores and stripping leading and trailing
underscores.  (The run-replacement alone is not the whole story, and for
non-ASCII input Python's Unicode `\w` additionally keeps non-ASCII word
characters.) -/
theorem to_public_id_ascii_spec (s : String) (h : ∀ c ∈ s.data, c.toNat < 128) :
    (∀ c ∈ (to_public_id s).data, keepChar c = true) ∧
    to_public_id s = String.mk (stripUnd (replaceRuns (fun c => c == '_')
      (replaceRuns (fun c => !keepChar c) s.data))) := by
  constructor
  · intro c hc
    have h1 := stripUnd_subset _ _ hc
    rcases mem_replaceRunsGo _ _ _ _ h1 with h2 | ⟨h2, _⟩
    · subst h2
      rfl
    · rcases mem_replaceRunsGo _ _ _ _ h2 with h3 | ⟨_, h3⟩
      · subst h3
        rfl
      · simpa using h3
  · unfold to_public_id
    rw [combining_filter_ascii s h]

/-- C2 counterexample: on the ASCII input `"!a"` the code returns `"a"`,
while replacing the maximal run `"!"` by a single underscore (with nothing
else changed, as the claim states) would give `"_a"`. -/
theorem to_public_id_run_cex :
    to_public_id "!a" = "a" ∧ spec_sanitize "!a" = "_a" ∧
    to_public_id "!a" ≠ spec_sanitize "!a" := by decide

/-- C2 witness: the amended sanitizer theorem applied to the alt text of
the specification's end-to-end scenario. -/
theorem to_public_id_ascii_spec_w :
    (∀ c ∈ ("Red Widget!" : String).data, c.toNat < 128) ∧
    ((∀ c ∈ (to_public_id "Red Widget!").data, keepChar c = true) ∧
     to_public_id "Red Widget!" = String.mk (stripUnd (replaceRuns (fun c => c == '_')
       (replaceRuns (fun c => !keepChar c) ("Red Widget!" : String).data)))) :=
  ⟨by decide, to_public_id_ascii_spec "Red Widget!" (by decide)⟩

/-! ## The URL transformer -/

theorem string_mk_data (s : String) : String.mk s.data = s := by
  cases s
  rfl

theorem isPrefixOf_append_self (l t : List Char) : l.isPrefixOf (l ++ t) = true := by
  induction l with
  | nil => simp [List.isPrefixOf]
  | cons a as ih =>
    show ((a == a) && as.isPrefixOf (as ++ t)) = true
    simp [ih]

theorem pyReplaceGo_step_pos (pat repl : List Char) (fuel : Nat) (c : Char)
    (cs : List Char) (h : (pat.isPrefixOf (c :: cs) && !pat.isEmpty) = true) :
    pyReplaceGo pat repl (fuel + 1) (c :: cs) =
      repl ++ pyReplaceGo pat repl fuel ((c :: cs).drop pat.length) := by
  simp only [pyReplaceGo]
  rw [if_pos h]

theorem pyReplaceGo_step_neg (pat repl : List Char) (fuel : Nat) (c : Char)
    (cs : List Char) (h : (pat.isPrefixOf (c :: cs) && !pat.isEmpty) = false) :
    pyReplaceGo pat repl (fuel + 1) (c :: cs) = c :: pyReplaceGo pat repl fuel cs := by
  simp only [pyReplaceGo]
  rw [if_neg (by simp [h])]

theorem pyReplaceGo_no_occur (pat repl : List Char) (fuel : Nat) :
    ∀ l : List Char, hasOccur pat l = false → pyReplaceGo pat repl fuel l = l := by
  induction fuel with
  | zero =>
    intro l _
    cases l <;> rfl
  | succ fuel ih =>
    intro l h
    cases l with
    | nil => rfl
    | cons c cs =>
      simp only [hasOccur, Bool.or_eq_false_iff] at h
      obtain ⟨h1, h2⟩ := h
      rw [pyReplaceGo_step_neg pat repl fuel c cs (by rw [h1]; rfl), ih cs h2]

theorem pyReplaceGo_insert (pat repl : List Char) (hpat : pat ≠ []) :
    ∀ (p : List Char) (fuel : Nat) (s : List Char), p.length < fuel →
      (∀ i, i < p.length → pat.isPrefixOf ((p ++ pat ++ s).drop i) = false) →
      hasOccur pat s = false →
      pyReplaceGo pat repl fuel (p ++ pat ++ s) = p ++ repl ++ s
  | [], fuel, s, hf, _, hs => by
    obtain ⟨f, rfl⟩ : ∃ f, fuel = f + 1 := ⟨fuel - 1, by omega⟩
    obtain ⟨a, as, rfl⟩ : ∃ a as, pat = a :: as := by
      cases pat with
      | nil => exact absurd rfl hpat
      | cons a as => exact ⟨a, as, rfl⟩
    have hpre : (a :: as).isPrefixOf (a :: (as ++ s)) = true := by
      rw [← List.cons_append]
      exact isPrefixOf_append_self _ _
    have hdrop : (a :: (as ++ s)).drop (a :: as).length = s := by
      simp only [List.length_cons, List.drop_succ_cons, List.drop_left]
    simp only [List.nil_append, List.cons_append]
    rw [pyReplaceGo_step_pos _ _ _ _ _ (by rw [hpre]; rfl), hdrop,
      pyReplaceGo_no_occur _ _ _ s hs]
  | x :: p, fuel, s, hf, hp, hs => by
    obtain ⟨f, rfl⟩ : ∃ f, fuel = f + 1 := ⟨fuel - 1, by omega⟩
    have h0 : pat.isPrefixOf (x :: (p ++ pat ++ s)) = false := by
      have := hp 0 (by simp)
      simpa using this
    have hp' : ∀ i, i < p.length → pat.isPrefixOf ((p ++ pat ++ s).drop i) = false := by
      intro i hi
      have := hp (i + 1) (by simp only [List.length_cons]; omega)
      simpa using this
    have hrec := pyReplaceGo_insert pat repl hpat p f s (by
      simp only [List.length_cons] at hf
      omega) hp' hs
    simp only [List.cons_append]
    rw [pyReplaceGo_step_neg _ _ _ _ _ (by rw [h0]; rfl), hrec]

/-- C3 (amended): a URL in which `/upload/` occurs exactly once (no
occurrence starts inside the prefix and none occurs in the suffix) is
returned with the descriptor inserted as a new path segment immediately
after the marker and nowhere else, even when the descriptor itself
textually contains `/upload/` (the replacement text is never rescanned);
a URL not containing the marker is returned unchanged.  (A URL with
several occurrences gets the descriptor inserted after each of them.) -/
theorem cld_transform_url_spec :
    (∀ u t : String, hasOccur "/upload/".data u.data = false →
      cld_transform_url u t = u) ∧
    (∀ p s t : String,
      (∀ i, i < p.data.length →
        ("/upload/".data.isPrefixOf ((p.data ++ "/upload/".data ++ s.data).drop i)) = false) →
      hasOccur "/upload/".data s.data = false →
      cld_transform_url (String.mk (p.data ++ "/upload/".data ++ s.data)) t =
        String.mk (p.data ++ "/upload/".data ++ t.data ++ '/' :: s.data)) := by
  constructor
  · intro u t h
    show String.mk (pyReplaceGo "/upload/".data ("/upload/".data ++ t.data ++ ['/'])
      u.data.length u.data) = u
    rw [pyReplaceGo_no_occur _ _ _ u.data h, string_mk_data]
  · intro p s t hp hs
    show String.mk (pyReplaceGo "/upload/".data ("/upload/".data ++ t.data ++ ['/'])
        (p.data ++ "/upload/".data ++ s.data).length
        (p.data ++ "/upload/".data ++ s.data)) =
      String.mk (p.data ++ "/upload/".data ++ t.data ++ '/' :: s.data)
    have h8 : ("/upload/".data).length = 8 := rfl
    rw [pyReplaceGo_insert "/upload/".data _ (by decide) p.data _ s.data
      (by simp only [List.length_append, h8]; omega) hp hs]
    congr 1
    simp [List.append_assoc]

/-- C3 counterexample: a URL containing the marker twice gets the
descriptor inserted after both occurrences, so the result differs from
either of the two single-insertion outcomes the claim allows for. -/
theorem cld_transform_url_multi_cex :
    cld_transform_url "https://h/upload/a/upload/b" "t" = "https://h/upload/t/a/upload/t/b" ∧
    cld_transform_url "https://h/upload/a/upload/b" "t" ≠ "https://h/upload/t/a/upload/b" ∧
    cld_transform_url "https://h/upload/a/upload/b" "t" ≠ "https://h/upload/a/upload/t/b" := by
  decide

/-- C3 witness: the single-occurrence insertion applied to a concrete URL
with a descriptor that itself contains the marker text, and the
no-occurrence case applied to a marker-free URL. -/
theorem cld_transform_url_spec_w :
    (hasOccur "/upload/".data ("https://h/no-marker/a.png" : String).data = false ∧
     cld_transform_url "https://h/no-marker/a.png" "tr" = "https://h/no-marker/a.png") ∧
    ((∀ i, i < ("https://res.x.com/demo/image" : String).data.length →
       ("/upload/".data.isPrefixOf ((("https://res.x.com/demo/image" : String).data ++
         "/upload/".data ++ ("v1/a.png" : String).data).drop i)) = false) ∧
     hasOccur "/upload/".data ("v1/a.png" : String).data = false ∧
     cld_transform_url (String.mk (("https://res.x.com/demo/image" : String).data ++
         "/upload/".data ++ ("v1/a.png" : String).data)) "/upload/" =
       String.mk (("https://res.x.com/demo/image" : String).data ++ "/upload/".data ++
         ("/upload/" : String).data ++ '/' :: ("v1/a.png" : String).data)) :=
  ⟨⟨by decide, cld_transform_url_spec.1 "https://h/no-marker/a.png" "tr" (by decide)⟩,
   ⟨by decide, by decide,
    cld_transform_url_spec.2 "https://res.x.com/demo/image" "v1/a.png" "/upload/"
      (by decide) (by decide)⟩⟩

/-! ## The row pipeline -/

theorem publicIdFor_eq_spec (cfg : Settings) (cols : List String) (r : Row) :
    publicIdFor cfg cols r = specChosenId cfg.useAltText (colVal cols r "Image Alt Text")
      (colVal cols r "Product Name") (cell_str (rowGet r "SKU")) := by
  unfold publicIdFor specChosenId
  by_cases hu : cfg.useAltText = true <;>
    by_cases ha : to_public_id (colVal cols r "Image Alt Text") = "" <;>
      by_cases hn : to_public_id (colVal cols r "Product Name") = "" <;>
        simp [hu, ha, hn, Bool.not_eq_true]

theorem publicIdFor_ne_empty (cfg : Settings) (cols : List String) (r : Row)
    (h : cell_str (rowGet r "SKU") ≠ "") : publicIdFor cfg cols r ≠ "" := by
  unfold publicIdFor
  by_cases h1 : (cfg.useAltText && !(to_public_id (colVal cols r "Image Alt Text") == "")) = true
  · rw [if_pos h1]
    intro hh
    rw [hh] at h1
    simp at h1
  · rw [if_neg h1]
    by_cases h2 : (!(to_public_id (colVal cols r "Product Name") == "")) = true
    · rw [if_pos h2]
      intro hh
      rw [hh] at h2
      simp at h2
    · rw [if_neg h2]
      exact h

theorem resultPublicId_processRow (cfg : Settings)
    (upload : String → String → String → Option String) (cols : List String) (r : Row)
    (pid : String) (h : resultPublicId (processRow cfg upload cols r) = Option.some pid) :
    pid = publicIdFor cfg cols r ∧ cell_str (rowGet r "SKU") ≠ "" := by
  unfold processRow at h
  by_cases h1 : cell_str (rowGet r "SKU") = ""
  · simp [h1, resultPublicId] at h
  · by_cases h2 : cell_str (rowGet r "Image") = ""
    · simp [h1, h2, resultPublicId] at h
    · have hb1 : (cell_str (rowGet r "SKU") == "") = false := beq_eq_false_iff_ne.mpr h1
      have hb2 : (cell_str (rowGet r "Image") == "") = false := beq_eq_false_iff_ne.mpr h2
      rw [hb1, if_neg (by simp), hb2, if_neg (by simp)] at h
      cases hup : upload (cell_str (rowGet r "Image")) (publicIdFor cfg cols r)
          (colVal cols r "Starting Url") with
      | none =>
        rw [hup] at h
        simp [resultPublicId] at h
        exact ⟨h.symm, h1⟩
      | some base_url =>
        rw [hup] at h
        simp [resultPublicId] at h
        exact ⟨h.symm, h1⟩

theorem public_id_mem_kept (folder ts pid : String) (h : pid ≠ "") :
    "public_id" ∈ keptKeys (sign_params_of folder ts pid) := by
  have hb : (pid == "") = false := beq_eq_false_iff_ne.mpr h
  unfold sign_params_of keptKeys
  rw [if_neg (by rw [hb]; simp)]
  apply List.mem_filter.mpr
  constructor
  · apply (mem_sortedKeys _ _).mpr
    simp
  · have hl : lookupP ([("folder", PyVal.str folder), ("overwrite", PyVal.str "true"),
        ("unique_filename", PyVal.str "false"), ("timestamp", PyVal.str ts)] ++
        [("public_id", PyVal.str pid)]) "public_id" = PyVal.str pid := by
      simp [lookupP, List.find?]
    rw [hl]
    simp [droppedVal, hb]

/-- C4 (amended): an iteration sleeps the throttle interval exactly when
the row passed validation (non-empty SKU and non-empty Image), whether the
upload then succeeds or fails; rows skipped during validation `continue`
past the `try/finally` and do not sleep. -/
theorem throttle_after_validated (cfg : Settings)
    (upload : String → String → String → Option String) (cols : List String)
    (st : LoopState) (r : Row) :
    (stepRow cfg upload cols st r).2 = true ↔
      (cell_str (rowGet r "SKU") ≠ "" ∧ cell_str (rowGet r "Image") ≠ "") := by
  unfold stepRow processRow
  by_cases h1 : cell_str (rowGet r "SKU") = ""
  · simp [h1]
  · by_cases h2 : cell_str (rowGet r "Image") = ""
    · simp [h1, h2]
    · have hb1 : (cell_str (rowGet r "SKU") == "") = false := beq_eq_false_iff_ne.mpr h1
      have hb2 : (cell_str (rowGet r "Image") == "") = false := beq_eq_false_iff_ne.mpr h2
      rw [hb1, if_neg (by simp), hb2, if_neg (by simp)]
      cases hup : upload (cell_str (rowGet r "Image")) (publicIdFor cfg cols r)
          (colVal cols r "Starting Url") with
      | none => simp [h1, h2]
      | some base_url => simp [h1, h2]

/-- C4 counterexample: a row with a missing SKU is skipped and its
iteration does not sleep, against the claim that every row outcome is
followed by the throttle sleep. -/
theorem skip_no_sleep_cex :
    (stepRow defaultSettings (fun _ _ _ => Option.none) ["SKU", "Image"]
      (LoopState.mk 0 0 [])
      [("SKU", Cell.na), ("Image", Cell.val "http://x/a.png")]).2 = false := by
  decide

/-- C5: whenever the output file is written, its columns are exactly the
source columns in their original order, followed by `Variant SKU` and
`Image Src`, each appended at the end only when not already present among
the source columns. -/
theorem output_columns_spec (cols : List String) (st : LoopState)
    (written : List String) (rowsOut : List (List (String × String)))
    (h : finalWrite cols st = Option.some (written, rowsOut)) :
    written = cols ++
      (if "Variant SKU" ∈ cols then [] else ["Variant SKU"]) ++
      (if "Image Src" ∈ cols then [] else ["Image Src"]) := by
  unfold finalWrite at h
  by_cases he : st.out_rows.isEmpty
  · rw [if_pos he] at h
    exact absurd h (by simp)
  · rw [if_neg he] at h
    simp only [Option.some.injEq, Prod.mk.injEq] at h
    obtain ⟨hw, _⟩ := h
    subst hw
    unfold outputColumns
    simp only [List.foldl_cons, List.foldl_nil]
    by_cases h1 : "Variant SKU" ∈ cols <;> by_cases h2 : "Image Src" ∈ cols <;>
      simp [h1, h2]

/-- C5 witness: the column theorem applied to a concrete written file. -/
theorem output_columns_spec_w :
    finalWrite ["SKU", "Image"] (LoopState.mk 1 1 [[("SKU", "A1")]]) =
      Option.some (["SKU", "Image", "Variant SKU", "Image Src"], [[("SKU", "A1")]]) ∧
    ["SKU", "Image", "Variant SKU", "Image Src"] = ["SKU", "Image"] ++
      (if "Variant SKU" ∈ ["SKU", "Image"] then [] else ["Variant SKU"]) ++
      (if "Image Src" ∈ ["SKU", "Image"] then [] else ["Image Src"]) :=
  ⟨by decide, output_columns_spec ["SKU", "Image"] (LoopState.mk 1 1 [[("SKU", "A1")]])
    ["SKU", "Image", "Variant SKU", "Image Src"] [[("SKU", "A1")]] (by decide)⟩

/-- C6: for every row that passes validation, the identifier handed to the
uploader is the sanitized alt text when the policy flag is enabled and that
sanitized value is non-empty, otherwise the sanitized product name when
non-empty, otherwise the raw SKU. -/
theorem public_id_policy (cfg : Settings)
    (upload : String → String → String → Option String) (cols : List String) (r : Row)
    (h1 : cell_str (rowGet r "SKU") ≠ "") (h2 : cell_str (rowGet r "Image") ≠ "") :
    resultPublicId (processRow cfg upload cols r) =
      Option.some (specChosenId cfg.useAltText (colVal cols r "Image Alt Text")
        (colVal cols r "Product Name") (cell_str (rowGet r "SKU"))) := by
  unfold processRow
  have hb1 : (cell_str (rowGet r "SKU") == "") = false := beq_eq_false_iff_ne.mpr h1
  have hb2 : (cell_str (rowGet r "Image") == "") = false := beq_eq_false_iff_ne.mpr h2
  rw [hb1, if_neg (by simp), hb2, if_neg (by simp)]
  cases hup : upload (cell_str (rowGet r "Image")) (publicIdFor cfg cols r)
      (colVal cols r "Starting Url") with
  | none => simp [resultPublicId, publicIdFor_eq_spec]
  | some base_url => simp [resultPublicId, publicIdFor_eq_spec]

/-- C6 witness: the policy theorem applied to the end-to-end scenario row,
where the alt text wins. -/
theorem public_id_policy_w :
    (cell_str (rowGet [("SKU", Cell.val "ABC1"), ("Image", Cell.val "http://x/a.png"),
        ("Image Alt Text", Cell.val "Red Widget!")] "SKU") ≠ "" ∧
     cell_str (rowGet [("SKU", Cell.val "ABC1"), ("Image", Cell.val "http://x/a.png"),
        ("Image Alt Text", Cell.val "Red Widget!")] "Image") ≠ "") ∧
    resultPublicId (processRow defaultSettings (fun _ _ _ => Option.none)
        ["SKU", "Image", "Image Alt Text"]
        [("SKU", Cell.val "ABC1"), ("Image", Cell.val "http://x/a.png"),
         ("Image Alt Text", Cell.val "Red Widget!")]) =
      Option.some (specChosenId defaultSettings.useAltText
        (colVal ["SKU", "Image", "Image Alt Text"]
          [("SKU", Cell.val "ABC1"), ("Image", Cell.val "http://x/a.png"),
           ("Image Alt Text", Cell.val "Red Widget!")] "Image Alt Text")
        (colVal ["SKU", "Image", "Image Alt Text"]
          [("SKU", Cell.val "ABC1"), ("Image", Cell.val "http://x/a.png"),
           ("Image Alt Text", Cell.val "Red Widget!")] "Product Name")
        (cell_str (rowGet [("SKU", Cell.val "ABC1"), ("Image", Cell.val "http://x/a.png"),
           ("Image Alt Text", Cell.val "Red Widget!")] "SKU"))) :=
  ⟨⟨by decide, by decide⟩,
   public_id_policy defaultSettings (fun _ _ _ => Option.none)
     ["SKU", "Image", "Image Alt Text"]
     [("SKU", Cell.val "ABC1"), ("Image", Cell.val "http://x/a.png"),
      ("Image Alt Text", Cell.val "Red Widget!")] (by decide) (by decide)⟩

/-- C7 (amended): whenever zero output rows were produced, no output file
is written and the fixed no-rows message is printed instead; that message
carries no attempted or processed counts. -/
theorem no_rows_no_write (cols : List String) (st : LoopState)
    (h : st.out_rows = []) :
    finalWrite cols st = Option.none ∧
    summaryMessage st = "No rows processed; nothing to write." := by
  constructor <;> simp [finalWrite, summaryMessage, h]

/-- C7 counterexample: a single row that is attempted and fails leaves zero
output rows; no file is written, but the final message is the fixed
no-rows line — it contains no digits, so it reports no counts, and the
actual attempted counter is 1, not 0. -/
theorem summary_counts_cex :
    (runRows defaultSettings (fun _ _ _ => Option.none) ["SKU", "Image"]
        [[("SKU", Cell.val "A1"), ("Image", Cell.val "http://x/a.png")]]
        (LoopState.mk 0 0 [])).out_rows = [] ∧
    (runRows defaultSettings (fun _ _ _ => Option.none) ["SKU", "Image"]
        [[("SKU", Cell.val "A1"), ("Image", Cell.val "http://x/a.png")]]
        (LoopState.mk 0 0 [])).attempted = 1 ∧
    finalWrite ["SKU", "Image"]
        (runRows defaultSettings (fun _ _ _ => Option.none) ["SKU", "Image"]
          [[("SKU", Cell.val "A1"), ("Image", Cell.val "http://x/a.png")]]
          (LoopState.mk 0 0 [])) = Option.none ∧
    summaryMessage (runRows defaultSettings (fun _ _ _ => Option.none) ["SKU", "Image"]
        [[("SKU", Cell.val "A1"), ("Image", Cell.val "http://x/a.png")]]
        (LoopState.mk 0 0 [])) = "No rows processed; nothing to write." ∧
    (summaryMessage (runRows defaultSettings (fun _ _ _ => Option.none) ["SKU", "Image"]
        [[("SKU", Cell.val "A1"), ("Image", Cell.val "http://x/a.png")]]
        (LoopState.mk 0 0 []))).data.all (fun c => !c.isDigit) = true := by
  decide

/-- C7 witness: the no-write theorem applied to a state with a nonzero
attempted count and no output rows. -/
theorem no_rows_no_write_w :
    ((LoopState.mk 3 0 []).out_rows = []) ∧
    (finalWrite ["SKU", "Image"] (LoopState.mk 3 0 []) = Option.none ∧
     summaryMessage (LoopState.mk 3 0 []) = "No rows processed; nothing to write.") :=
  ⟨rfl, no_rows_no_write ["SKU", "Image"] (LoopState.mk 3 0 []) rfl⟩

/-- C9: starting from the initial state, after any sequence of rows the
processed counter equals the length of the accumulated output-row list and
never exceeds the attempted counter (every intermediate state of a run is
itself the final state of the prefix that produced it); and a row whose
upload raises increments attempted while leaving processed and the output
rows unchanged. -/
theorem counters_invariant :
    (∀ (cfg : Settings) (upload : String → String → String → Option String)
      (cols : List String) (rows : List Row),
      countersOk (runRows cfg upload cols rows (LoopState.mk 0 0 []))) ∧
    (∀ (cfg : Settings) (upload : String → String → String → Option String)
      (cols : List String) (st : LoopState) (r : Row) (sku pid : String),
      processRow cfg upload cols r = RowResult.failed sku pid →
      stepRow cfg upload cols st r =
        (LoopState.mk (st.attempted + 1) st.processed st.out_rows, true)) := by
  have hstep : ∀ cfg upload cols st r, countersOk st →
      countersOk (stepRow cfg upload cols st r).1 := by
    intro cfg upload cols st r h
    obtain ⟨h1, h2⟩ := h
    unfold stepRow
    cases processRow cfg upload cols r with
    | skippedSku => exact ⟨h1, h2⟩
    | skippedImage _ => exact ⟨h1, h2⟩
    | failed _ _ =>
      refine ⟨h1, ?_⟩
      show st.processed ≤ st.attempted + 1
      omega
    | succeeded _ _ _ out =>
      constructor
      · show st.processed + 1 = (st.out_rows ++ [out]).length
        rw [List.length_append, h1]
        rfl
      · show st.processed + 1 ≤ st.attempted + 1
        omega
  constructor
  · intro cfg upload cols rows
    have hrun : ∀ st, countersOk st → countersOk (runRows cfg upload cols rows st) := by
      induction rows with
      | nil => intro st h; exact h
      | cons r rows ih =>
        intro st h
        exact ih _ (hstep cfg upload cols st r h)
    exact hrun _ ⟨rfl, Nat.le_refl 0⟩
  · intro cfg upload cols st r sku pid h
    unfold stepRow
    rw [h]

/-- C9 witness: the invariant after a concrete run, and the failed-row step
applied to a concrete state and a row whose upload raises. -/
theorem counters_invariant_w :
    countersOk (runRows defaultSettings (fun _ _ _ => Option.none) ["SKU", "Image"]
      [[("SKU", Cell.val "A1"), ("Image", Cell.val "http://x/a.png")]]
      (LoopState.mk 0 0 [])) ∧
    (processRow defaultSettings (fun _ _ _ => Option.none) ["SKU", "Image"]
        [("SKU", Cell.val "A1"), ("Image", Cell.val "http://x/a.png")] =
      RowResult.failed "A1" "A1") ∧
    stepRow defaultSettings (fun _ _ _ => Option.none) ["SKU", "Image"]
        (LoopState.mk 5 2 [[("SKU", "B")]])
        [("SKU", Cell.val "A1"), ("Image", Cell.val "http://x/a.png")] =
      (LoopState.mk 6 2 [[("SKU", "B")]], true) :=
  ⟨counters_invariant.1 defaultSettings (fun _ _ _ => Option.none) ["SKU", "Image"]
     [[("SKU", Cell.val "A1"), ("Image", Cell.val "http://x/a.png")]],
   by decide,
   counters_invariant.2 defaultSettings (fun _ _ _ => Option.none) ["SKU", "Image"]
     (LoopState.mk 5 2 [[("SKU", "B")]])
     [("SKU", Cell.val "A1"), ("Image", Cell.val "http://x/a.png")] "A1" "A1" (by decide)⟩

/-- C10: whenever a row reaches the upload step (the pipeline records an
identifier for it), that identifier is non-empty — its last fallback is the
SKU, which validation has already required to be non-empty — and therefore
the signed parameter set of the upload request contains `public_id` among
the parameter names that get signed. -/
theorem public_id_nonempty_signed (cfg : Settings)
    (upload : String → String → String → Option String) (cols : List String) (r : Row)
    (pid folder ts : String)
    (h : resultPublicId (processRow cfg upload cols r) = Option.some pid) :
    pid ≠ "" ∧ "public_id" ∈ keptKeys (sign_params_of folder ts pid) := by
  obtain ⟨hpid, hsku⟩ := resultPublicId_processRow cfg upload cols r pid h
  have hne : pid ≠ "" := by
    rw [hpid]
    exact publicIdFor_ne_empty cfg cols r hsku
  exact ⟨hne, public_id_mem_kept folder ts pid hne⟩

/-- C10 witness: the theorem applied to a concrete row whose upload raises,
with the identifier falling out of the alt text. -/
theorem public_id_nonempty_signed_w :
    resultPublicId (processRow defaultSettings (fun _ _ _ => Option.none)
        ["SKU", "Image", "Image Alt Text"]
        [("SKU", Cell.val "ABC1"), ("Image", Cell.val "http://x/a.png"),
         ("Image Alt Text", Cell.val "Red Widget!")]) = Option.some "Red_Widget" ∧
    ("Red_Widget" ≠ "" ∧
     "public_id" ∈ keptKeys (sign_params_of "husq_parts" "1700000000" "Red_Widget")) :=
  ⟨by decide,
   public_id_nonempty_signed defaultSettings (fun _ _ _ => Option.none)
     ["SKU", "Image", "Image Alt Text"]
     [("SKU", Cell.val "ABC1"), ("Image", Cell.val "http://x/a.png"),
      ("Image Alt Text", Cell.val "Red Widget!")] "Red_Widget" "husq_parts" "1700000000"
     (by decide)⟩
